import Mathlib

/-!
Verification development for the sonarr_youtubedl reconciliation engine
(src/app/sonarr_youtubedl.py and src/app/utils.py), as a shallow embedding.

Conventions of the embedding:
* Python `str.replace` (replace every non-overlapping occurrence, scanning
  left to right over the original string) is modelled by `pyReplace`.
* Python `datetime` values are modelled as `Int` minutes since an arbitrary
  epoch; `datetime.timedelta(weeks, days, hours, minutes)` is exact at this
  granularity, so `offsethandler` is translated exactly.
* Python dictionaries holding youtube-dl options are modelled as association
  lists `List (String × String)`; `dict.update {k: v}` is `dictSet`.
* External capabilities (the filesystem existence check, `os.path.abspath`,
  the Sonarr episode fetch, Python `re.sub`, the yt-dlp extraction call, the
  download call and the rescan call) are parameters of the functions that
  use them; exceptions raised by a capability are modelled with `Except`.
* A Python function falling off its end (returning `None`) where a tuple is
  expected is modelled by an `Option` result, `none` standing for `None`.
-/

/-! ### Python string primitives -/

/-- Fuel-indexed core of Python `str.replace`: scan the text left to right,
at each position either consume a full occurrence of the pattern (emitting
the replacement and never rescanning it) or emit one character. Fuel at
least the length of the text makes the scan run to completion. -/
def replaceFuel (pat rep : List Char) : Nat → List Char → List Char
  | _, [] => []
  | 0, s => s
  | fuel + 1, c :: cs =>
    if pat.isPrefixOf (c :: cs) then
      rep ++ replaceFuel pat rep fuel ((c :: cs).drop pat.length)
    else
      c :: replaceFuel pat rep fuel cs

/-- Python `s.replace(pat, rep)` for a non-empty pattern: replace every
non-overlapping occurrence, left to right, without rescanning replacements. -/
def pyReplace (s pat rep : String) : String :=
  ⟨replaceFuel pat.data rep.data s.data.length s.data⟩

/-- Python `s.upper()` restricted to the ASCII range, which is all the
uppercasing the titles exercised here need. -/
def pyUpper (s : String) : String :=
  ⟨s.data.map Char.toUpper⟩

/-! ### utils.upperescape (src/app/utils.py lines 39-81)

Each step is one `str.replace` of the source, in source order; the single
`re.sub("S\\\\", "([']?)S\\\\", string)` call has a constant pattern `S\`
with no metacharacters, so it is the same left-to-right non-overlapping
replacement as `str.replace` and is translated with `pyReplace` too. -/

def upperescape (s : String) : String :=
  let s := pyUpper s
  let s := pyReplace s "–" "-"
  let s := pyReplace s "(" "\\("
  let s := pyReplace s ")" "\\)"
  let s := pyReplace s ":" "([:]?)"
  let s := pyReplace s "'" "(['’]?)"
  let s := pyReplace s "," "([,]?)"
  let s := pyReplace s "!" "([!]?)"
  let s := pyReplace s "\\?" "([\\?]?)"
  let s := pyReplace s "\\." "([\\.]?)"
  let s := pyReplace s "\\ AND\\ " "\\ (AND|&)\\ "
  let s := pyReplace s "-" "([-–]??)"
  let s := pyReplace s "S\\" "([']?)S\\"
  pyReplace s " " "\\s*"

/-! ### utils.offsethandler (src/app/utils.py lines 113-134) -/

/-- Offset specification from a series entry of config.yml: each field is
present (`some`) or absent (`none`), mirroring `"weeks" in offset` etc. -/
structure OffsetSpec where
  weeks : Option Int := none
  days : Option Int := none
  hours : Option Int := none
  minutes : Option Int := none
deriving DecidableEq, Repr

/-- Embedding of `offsethandler(airdate, offset)`: timestamps are minutes,
and `timedelta(weeks, days, hours, minutes)` is the exact total in minutes. -/
def offsethandler (airdate : Int) (offset : OffsetSpec) : Int :=
  let weeks : Int := match offset.weeks with | some w => w | none => 0
  let days : Int := match offset.days with | some d => d | none => 0
  let hours : Int := match offset.hours with | some h => h | none => 0
  let minutes : Int := match offset.minutes with | some m => m | none => 0
  airdate + (((weeks * 7 + days) * 24 + hours) * 60 + minutes)

/-! ### Data model

Records carry exactly the fields the reconciliation pipeline reads. -/

/-- A series record returned by the Sonarr `series` listing. -/
structure RemoteSeries where
  id : Nat
  title : String
  monitored : Bool
  path : String
deriving DecidableEq, Repr

/-- One entry of the configured wanted-series list (`cfg["series"]`).
Optional keys are `Option`/`Bool` flags mirroring `"key" in wnt` tests. -/
structure WantedSeries where
  title : String
  url : String
  sonarr_regex : Option (String × String) := none
  site_regex : Option (String × String) := none
  offset : Option OffsetSpec := none
  cookies_file : Option String := none
  format : Option String := none
  playlistreverse : Option String := none
  subtitles : Bool := false
  subtitles_languages : Option (List String) := none
  subtitles_autogenerated : Option Bool := none
  preprend_with_title : Bool := false
deriving DecidableEq, Repr

/-- The merged per-series policy built by `filterseries` (the source keeps
the remote series dict and adds/overwrites keys on it). -/
structure SeriesPolicy where
  id : Nat
  title : String
  monitored : Bool
  path : String
  url : String
  subtitles : Bool
  playlistreverse : Bool
  subtitles_languages : List String
  subtitles_autogenerated : Bool
  sonarr_regex : Option (String × String)
  site_regex : Option (String × String)
  offset : Option OffsetSpec
  cookies_file : Option String
  format : Option String
  preprend_with_title : Bool
deriving DecidableEq, Repr

/-- An episode record returned by the Sonarr `episode` listing.
`airDateUtc` is `none` when the key is absent. -/
structure EpisodeRecord where
  id : Nat
  seriesId : Nat
  title : String
  seasonNumber : Nat
  episodeNumber : Nat
  airDateUtc : Option Int
  monitored : Bool
  hasFile : Bool
deriving DecidableEq, Repr

/-! ### SonarrYTDL.filterseries (src/app/sonarr_youtubedl.py lines 159-204) -/

/-- The body of the matched branch of `filterseries`: set the default
values on the remote series dict, then overwrite from the wanted entry. -/
def buildPolicy (ser : RemoteSeries) (wnt : WantedSeries) : SeriesPolicy :=
  { id := ser.id
    title := ser.title
    monitored := ser.monitored
    path := ser.path
    subtitles := wnt.subtitles
    playlistreverse := !(wnt.playlistreverse == some "False")
    subtitles_languages := match wnt.subtitles_languages with
      | some langs => langs
      | none => ["en"]
    subtitles_autogenerated := match wnt.subtitles_autogenerated with
      | some b => b
      | none => false
    sonarr_regex := wnt.sonarr_regex
    site_regex := wnt.site_regex
    offset := wnt.offset
    cookies_file := wnt.cookies_file
    format := wnt.format
    url := wnt.url
    preprend_with_title := wnt.preprend_with_title }

/-- Embedding of `filterseries`: the outer loop walks the remote listing,
the inner loop walks the configured wanted list, and every title match
appends one merged policy, in loop order. -/
def filterseries : List RemoteSeries → List WantedSeries → List SeriesPolicy
  | [], _ => []
  | ser :: rest, wanted =>
    ((wanted.filter (fun wnt => wnt.title == ser.title)).map (buildPolicy ser))
      ++ filterseries rest wanted

/-! ### SonarrYTDL.getseriesepisodes (src/app/sonarr_youtubedl.py lines 206-232) -/

/-- The offset adjustment applied to a parsed air date inside
`getseriesepisodes`: `offsethandler` runs only when the series policy has
an `offset` key. -/
def adjustedAirDate (ser : SeriesPolicy) (d : Int) : Int :=
  match ser.offset with
  | none => d
  | some off => offsethandler d off

/-- The per-episode keep/drop test of `getseriesepisodes`: compute
`eps_date` (defaulting to `now`, parsing `airDateUtc` when present and
applying the series offset when configured), then drop the episode when
it is unmonitored, already has a file, or airs strictly after `now`. -/
def episodeNeeded (ser : SeriesPolicy) (now : Int) (eps : EpisodeRecord) : Bool :=
  let eps_date : Int :=
    match eps.airDateUtc with
    | none => now
    | some d => adjustedAirDate ser d
  !(!eps.monitored || eps.hasFile || decide (eps_date > now))

/-- The title-rewrite step applied to a kept episode: when the series has a
`sonarr` regex rule, `re.sub(match, replace, title)` rewrites the episode
title. `resub` is the Python `re.sub` capability (pattern, replacement,
input). -/
def applyRewrite (resub : String → String → String → String)
    (ser : SeriesPolicy) (eps : EpisodeRecord) : EpisodeRecord :=
  match ser.sonarr_regex with
  | some (m, r) => { eps with title := resub m r eps.title }
  | none => eps

/-- Embedding of `getseriesepisodes`: for each series fetch its episodes
(`fetch` is the Sonarr episode-listing capability keyed by series id),
keep the needed ones (rewritten), and remove from the series list every
series whose filtered episode list came out empty. Returns the surviving
series list (the source mutates `series` in place) and the needed list. -/
def getseriesepisodes (fetch : Nat → List EpisodeRecord)
    (resub : String → String → String → String) (now : Int) :
    List SeriesPolicy → List SeriesPolicy × List EpisodeRecord
  | [] => ([], [])
  | ser :: rest =>
    let eps := (fetch ser.id).filter (episodeNeeded ser now)
    let neededHere := eps.map (applyRewrite resub ser)
    let r := getseriesepisodes fetch resub now rest
    if eps.isEmpty then (r.1, neededHere ++ r.2)
    else (ser :: r.1, neededHere ++ r.2)

/-! ### SonarrYTDL.appendcookie (src/app/sonarr_youtubedl.py lines 234-254) -/

/-- Python `dict.update({k: v})` on an association list with unique keys:
overwrite the value in place when the key is present, append otherwise. -/
def dictSet (d : List (String × String)) (k v : String) : List (String × String) :=
  if d.any (fun p => p.1 == k) then
    d.map (fun p => if p.1 == k then (k, v) else p)
  else
    d ++ [(k, v)]

/-- Embedding of `appendcookie(ytdlopts, cookies)`: `pathExists` is the
`os.path.exists` capability, `abspath` is `os.path.abspath`, and
`configpath` is the module constant `CONFIGPATH`. -/
def appendcookie (pathExists : String → Bool) (abspath : String → String)
    (configpath : String) (ytdlopts : List (String × String))
    (cookies : Option String) : List (String × String) :=
  match cookies with
  | some c =>
    let cookie_path := abspath (configpath ++ c)
    if pathExists cookie_path then dictSet ytdlopts "cookiefile" cookie_path
    else ytdlopts
  | none => ytdlopts

/-! ### SonarrYTDL.ytsearch (src/app/sonarr_youtubedl.py lines 290-312) -/

/-- One entry of an extraction result; `webpage_url` is
`entry.get("webpage_url")`, `none` when the key is absent. -/
structure Entry where
  webpage_url : Option String
deriving DecidableEq, Repr

/-- The value produced by `ydl.extract_info(playlist, download=False)`.
`entries` is `result.get("entries", None)`; an element `none` models a
`None` element inside the Python list (the `[None]` case the source
checks for). `webpage_url` is `result.get("webpage_url")`. -/
structure ExtractResult where
  entries : Option (List (Option Entry))
  webpage_url : Option String
deriving DecidableEq, Repr

/-- Embedding of `ytsearch(ydl_opts, playlist)`. The extraction capability
outcome is passed in: `Except.error` models `extract_info` raising. On an
exception the source logs and falls off the end of the function, returning
Python `None` — modelled as `none`. In the `else` branch: a truthy entries
list different from `[None]` yields the first entry's `webpage_url` (a
`None` first entry makes `entries[0].get` raise, caught by the inner
handler, leaving `video_url = None`); otherwise the result's own
`webpage_url` is used. A `video_url` equal to the playlist URL, or no
`video_url` at all, is "not found" `(false, "")`; otherwise the URL is
returned with `true`. -/
def ytsearch (res : Except Unit ExtractResult) (playlist : String) :
    Option (Bool × String) :=
  match res with
  | .error _ => none
  | .ok result =>
    let entries := result.entries
    let video_url : Option String :=
      match entries with
      | none => result.webpage_url
      | some es =>
        if es.isEmpty || es == [none] then result.webpage_url
        else
          match es with
          | some e :: _ => e.webpage_url
          | none :: _ => none
          | [] => result.webpage_url
    if video_url == some playlist then some (false, "")
    else
      match video_url with
      | none => some (false, "")
      | some u => some (true, u)

/-! ### The per-episode try block of SonarrYTDL.download
(src/app/sonarr_youtubedl.py lines 387-392) -/

/-- Embedding of the `try` block guarding one episode's transfer:
`yt_dlp.YoutubeDL(...).download([dlurl])`, then `self.rescanseries(...)`,
then the success log line; any exception jumps to the handler, which logs
the failure line. `dl` and `rescan` are the outcomes of the two calls
(`Except.error` models a raised exception; the rescan call is only
reached when the download succeeded). The returned list is the sequence
of log messages the block emits at info/exception level. -/
def downloadAttempt (dl rescan : Except Unit Unit) (eps_title : String) :
    List String :=
  match dl with
  | .error _ => ["      Failed - " ++ eps_title]
  | .ok _ =>
    match rescan with
    | .error _ => ["      Failed - " ++ eps_title]
    | .ok _ => ["      Downloaded - " ++ eps_title]

/-! ### The output path built by SonarrYTDL.download
(src/app/sonarr_youtubedl.py lines 335-352) -/

/-- Python `"{:02d}".format(n)` for a natural number. -/
def format02 (n : Nat) : String :=
  if n < 10 then "0" ++ toString n else toString n

/-- Embedding of the `outtmpl` computation of `download`: strip colons
from the episode title and replace double spaces (one `str.replace` pass),
strip colons from the series title, then substitute into
`"/sonarr_root{0}/Season {1}/{2}.S{1}E{3:02d}.{4}.%(ext)s"`, where the
season number is formatted plainly and the episode number with `{:02d}`. -/
def buildOutputPath (ser : SeriesPolicy) (eps : EpisodeRecord) : String :=
  let episode_title_no_colon := pyReplace (pyReplace eps.title ":" "") "  " " "
  let ser_title_no_colon := pyReplace ser.title ":" ""
  "/sonarr_root" ++ ser.path ++ "/Season " ++ toString eps.seasonNumber ++ "/"
    ++ ser_title_no_colon ++ ".S" ++ toString eps.seasonNumber ++ "E"
    ++ format02 eps.episodeNumber ++ "." ++ episode_title_no_colon ++ ".%(ext)s"

/-! ### Concrete fixtures used by counterexamples and witnesses -/

/-- A minimal wanted-series configuration entry titled "A". -/
def wantedA : WantedSeries := { title := "A", url := "u" }

/-- A remote series record titled "A". -/
def remoteA : RemoteSeries := ⟨1, "A", true, "/a"⟩

/-- A remote series record titled "B". -/
def remoteB : RemoteSeries := ⟨2, "B", true, "/b"⟩

/-- The policy merged from `remoteA` and `wantedA`. -/
def policyA : SeriesPolicy := buildPolicy remoteA wantedA

/-- An episode that already has a file on disk. -/
def epHasFile : EpisodeRecord := ⟨1, 1, "E1", 1, 1, some (-5), true, true⟩

/-- A monitored, fileless episode with no air date. -/
def epNoDate : EpisodeRecord := ⟨2, 1, "E2", 1, 2, none, true, false⟩

/-- A monitored, fileless episode airing strictly in the future. -/
def epFuture : EpisodeRecord := ⟨3, 1, "E3", 1, 3, some 5, true, false⟩

/-- The policy for the spec's end-to-end example series "Example Show". -/
def exampleShowPolicy : SeriesPolicy :=
  buildPolicy ⟨42, "Example Show", true, "/tv"⟩ { title := "Example Show", url := "u" }

/-- The spec's end-to-end example episode "Pilot", season 1 episode 1. -/
def pilotEpisode : EpisodeRecord := ⟨7, 42, "Pilot", 1, 1, some (-5), true, false⟩

/-- An episode whose title contains a run of three spaces. -/
def tripleSpaceEpisode : EpisodeRecord := ⟨8, 42, "A   B", 1, 1, some (-5), true, false⟩

/-! ## Theorems -/

/-- Helper: replacing every occurrence of the one-character pattern `[c]`
by the empty string leaves no occurrence of `c` in the scanned text. -/
theorem not_mem_replaceFuel_single (c : Char) :
    ∀ (fuel : Nat) (s : List Char), s.length ≤ fuel → c ∉ replaceFuel [c] [] fuel s := by
  intro fuel
  induction fuel with
  | zero =>
    intro s hs
    have hnil : s = [] := List.eq_nil_of_length_eq_zero (Nat.le_zero.mp hs)
    subst hnil
    simp [replaceFuel]
  | succ fuel ih =>
    intro s hs
    cases s with
    | nil => simp [replaceFuel]
    | cons a as =>
      simp only [replaceFuel]
      by_cases hpre : List.isPrefixOf [c] (a :: as)
      · rw [if_pos hpre]
        have has : as.length ≤ fuel := by
          simpa using Nat.le_of_succ_le_succ (by simpa using hs)
        simpa using ih as has
      · rw [if_neg hpre]
        intro hmem
        rcases List.mem_cons.mp hmem with rfl | hmem
        · exact hpre (by simp [List.isPrefixOf])
        · have has : as.length ≤ fuel := by
            simpa using Nat.le_of_succ_le_succ (by simpa using hs)
          exact ih as has hmem

/-- Helper: `pyReplace s ":" ""` removes every colon. -/
theorem colon_not_mem_pyReplace (s : String) : ':' ∉ (pyReplace s ":" "").data :=
  not_mem_replaceFuel_single ':' s.data.length s.data (Nat.le_refl _)

/-- Claim C9: the offset calculator is the identity on an empty offset
specification, shifts by 7 days for `{weeks: 1}`, and is additive across
the four fields: applying the whole specification equals applying the
weeks, days, hours and minutes shifts one after the other. -/
theorem offsethandler_additive (t : Int) (off : OffsetSpec) :
    offsethandler t {} = t ∧
    offsethandler t { weeks := some 1 } = t + 7 * 24 * 60 ∧
    offsethandler t off =
      offsethandler (offsethandler (offsethandler
        (offsethandler t { weeks := off.weeks })
        { days := off.days }) { hours := off.hours }) { minutes := off.minutes } := by
  obtain ⟨w, d, h, m⟩ := off
  refine ⟨by simp [offsethandler], by simp [offsethandler], ?_⟩
  cases w <;> cases d <;> cases h <;> cases m <;> simp [offsethandler] <;> ring

/-- Claim C5: the episode need filter never keeps an episode that already
has a file; it keeps an episode with no air date exactly when it is
monitored and fileless; and it drops every episode whose offset-adjusted
air date is strictly after the `now` snapshot. -/
theorem episodeNeeded_spec (ser : SeriesPolicy) (now : Int) (eps : EpisodeRecord) :
    (eps.hasFile = true → episodeNeeded ser now eps = false) ∧
    (eps.airDateUtc = none → episodeNeeded ser now eps = (eps.monitored && !eps.hasFile)) ∧
    (∀ d : Int, eps.airDateUtc = some d → adjustedAirDate ser d > now →
      episodeNeeded ser now eps = false) := by
  refine ⟨?_, ?_, ?_⟩
  · intro h
    cases had : eps.airDateUtc <;> simp [episodeNeeded, had, h]
  · intro h
    simp [episodeNeeded, h]
  · intro d hd hgt
    simp [episodeNeeded, hd, decide_eq_true hgt]

/-- Witness for C5 at concrete inputs: an episode with a file is dropped,
a monitored fileless episode with no air date is kept, and a future-dated
episode is dropped. -/
theorem episodeNeeded_spec_witness :
    episodeNeeded policyA 0 epHasFile = false ∧
    episodeNeeded policyA 0 epNoDate = true ∧
    episodeNeeded policyA 0 epFuture = false :=
  ⟨(episodeNeeded_spec policyA 0 epHasFile).1 rfl,
   (episodeNeeded_spec policyA 0 epNoDate).2.1 rfl,
   (episodeNeeded_spec policyA 0 epFuture).2.2 5 rfl (by decide)⟩

/-- Claim C1 (code bug): when the extraction capability raises, `ytsearch`
catches and logs the exception but then falls off the end of the function,
returning Python `None` rather than the "not found" pair `(False, "")`;
the caller `found, dlurl = self.ytsearch(...)` then fails to unpack the
result, so the batch does abort. -/
theorem ytsearch_exception_returns_none :
    ytsearch (Except.error ()) "https://youtube.com/playlist" = none ∧
    ytsearch (Except.error ()) "https://youtube.com/playlist" ≠ some (false, "") := by
  exact ⟨rfl, by decide⟩

/-- Counterexample to claim C2 as stated: with a successful download and a
failing rescan call, the only log line emitted is the failure line; the
success line is not logged. -/
theorem downloadAttempt_rescan_not_fire_and_forget :
    downloadAttempt (Except.ok ()) (Except.error ()) "Pilot" = ["      Failed - Pilot"] ∧
    "      Downloaded - Pilot" ∉ downloadAttempt (Except.ok ()) (Except.error ()) "Pilot" := by
  decide

/-- Claim C2 as amended: a rescan failure after a successful download is
caught (the batch continues), but the episode is reported through the
failure path — the handler logs "Failed" and the success line never runs. -/
theorem downloadAttempt_rescan_failure_logs_failed (t : String) :
    downloadAttempt (Except.ok ()) (Except.error ()) t = ["      Failed - " ++ t] := rfl

/-- Claim C3 (code bug): the `" AND "`/`" & "` interchange step of
`upperescape` targets the escaped text `"\ AND\ "`, which never occurs
because spaces are not escaped before it runs; a title containing
`" AND "` therefore compiles to a pattern that still requires the literal
word AND (the pattern does not even contain an ampersand). -/
theorem upperescape_and_ampersand_not_interchangeable :
    upperescape "FOO AND BAR" = "FOO\\s*AND\\s*BAR" ∧
    '&' ∉ (upperescape "FOO AND BAR").data := by
  decide

/-- Claim C4 (code bug): the period and question-mark steps of
`upperescape` target the escaped texts `"\."` and `"\?"`, which never
occur because those characters are not escaped earlier, and a typographic
apostrophe in the input is not replaced at all; titles containing a plain
period, question mark or typographic apostrophe compile to patterns that
keep the mark literally instead of a zero-or-one alternation. -/
theorem upperescape_period_question_typographic_not_optional :
    upperescape "A.B" = "A.B" ∧
    upperescape "WHO?" = "WHO?" ∧
    upperescape "IT’S" = "IT’S" ∧
    upperescape "A:B" = "A([:]?)B" := by
  decide

/-- Counterexample to claim C7 as stated: a run of three spaces in the
episode title survives as a double space in the output path, because the
source performs a single `replace("  ", " ")` pass rather than collapsing
all repeated spaces. -/
theorem buildOutputPath_triple_space_counterexample :
    buildOutputPath exampleShowPolicy tripleSpaceEpisode
      = "/sonarr_root/tv/Season 1/Example Show.S1E01.A  B.%(ext)s" ∧
    buildOutputPath exampleShowPolicy tripleSpaceEpisode
      ≠ "/sonarr_root/tv/Season 1/Example Show.S1E01.A B.%(ext)s" := by
  decide

/-- Claim C7 as amended: colons are removed from both titles (the colon
replacement removes every occurrence), double spaces in the episode title
are replaced by single spaces in one left-to-right pass (so longer runs
are only partially collapsed), the season number is not zero-padded and
the episode number is zero-padded to two digits; in particular season 1
episode 1 of "Example Show"/"Pilot" yields the spec's example path. -/
theorem buildOutputPath_spec :
    (∀ s : String, ':' ∉ (pyReplace s ":" "").data) ∧
    buildOutputPath exampleShowPolicy pilotEpisode
      = "/sonarr_root/tv/Season 1/Example Show.S1E01.Pilot.%(ext)s" ∧
    buildOutputPath exampleShowPolicy tripleSpaceEpisode
      = "/sonarr_root/tv/Season 1/Example Show.S1E01.A  B.%(ext)s" ∧
    (∀ n : Fin 100, (format02 n.val).length = 2) := by
  refine ⟨fun s => colon_not_mem_pyReplace s, by decide, by decide, by decide⟩


/-- Helper: overwriting the entries keyed `k` does not change lookups of
other keys. -/
theorem lookup_map_overwrite_ne (d : List (String × String)) (k v k' : String)
    (h : k' ≠ k) :
    (d.map (fun p => if p.1 == k then (k, v) else p)).lookup k' = d.lookup k' := by
  induction d with
  | nil => rfl
  | cons p rest ih =>
    rw [List.map_cons]
    by_cases hp : (p.1 == k) = true
    · rw [if_pos hp]
      have hp' : p.1 = k := beq_iff_eq.mp hp
      have hk : (k' == k) = false := beq_eq_false_iff_ne.mpr h
      have hk2 : (k' == p.1) = false := by rw [hp']; exact hk
      simp only [List.lookup, hk, hk2]
      exact ih
    · rw [if_neg hp]
      cases hkp : (k' == p.1) with
      | false =>
        simp only [List.lookup, hkp]
        exact ih
      | true => simp only [List.lookup, hkp]

/-- Helper: overwriting the entries keyed `k` makes looking up `k` return
the new value, provided some entry carries the key. -/
theorem lookup_map_overwrite_self (d : List (String × String)) (k v : String)
    (h : d.any (fun p => p.1 == k) = true) :
    (d.map (fun p => if p.1 == k then (k, v) else p)).lookup k = some v := by
  induction d with
  | nil => simp at h
  | cons p rest ih =>
    rw [List.map_cons]
    by_cases hp : (p.1 == k) = true
    · rw [if_pos hp]
      have hkk : (k == k) = true := by simp
      simp only [List.lookup, hkk]
    · rw [if_neg hp]
      have hp' : (p.1 == k) = false := by
        cases hval : (p.1 == k) with
        | true => exact absurd hval hp
        | false => rfl
      have hk : (k == p.1) = false :=
        beq_eq_false_iff_ne.mpr fun hkk => (beq_eq_false_iff_ne.mp hp') hkk.symm
      have hrest : rest.any (fun p => p.1 == k) = true := by
        simpa [List.any_cons, hp'] using h
      simp only [List.lookup, hk]
      exact ih hrest

/-- Helper: appending a fresh `(k, v)` entry does not change lookups of
other keys. -/
theorem lookup_append_single_ne (d : List (String × String)) (k v k' : String)
    (h : k' ≠ k) :
    (d ++ [(k, v)]).lookup k' = d.lookup k' := by
  induction d with
  | nil =>
    have hk : (k' == k) = false := beq_eq_false_iff_ne.mpr h
    simp only [List.nil_append, List.lookup, hk]
  | cons p rest ih =>
    rw [List.cons_append]
    cases hkp : (k' == p.1) with
    | false =>
      simp only [List.lookup, hkp]
      exact ih
    | true => simp only [List.lookup, hkp]

/-- Helper: appending `(k, v)` to a list with no entry keyed `k` makes
looking up `k` return `v`. -/
theorem lookup_append_single_self (d : List (String × String)) (k v : String)
    (h : d.any (fun p => p.1 == k) = false) :
    (d ++ [(k, v)]).lookup k = some v := by
  induction d with
  | nil =>
    have hkk : (k == k) = true := by simp
    simp only [List.nil_append, List.lookup, hkk]
  | cons p rest ih =>
    rw [List.cons_append]
    have hp : (p.1 == k) = false := by
      cases hval : (p.1 == k) with
      | true => simp [List.any_cons, hval] at h
      | false => rfl
    have hk : (k == p.1) = false :=
      beq_eq_false_iff_ne.mpr fun hkk => (beq_eq_false_iff_ne.mp hp) hkk.symm
    have hrest : rest.any (fun p => p.1 == k) = false := by
      simpa [List.any_cons, hp] using h
    simp only [List.lookup, hk]
    exact ih hrest

/-- Helper: `dictSet` leaves every other key's lookup unchanged. -/
theorem lookup_dictSet_ne (d : List (String × String)) (k v k' : String)
    (h : k' ≠ k) : (dictSet d k v).lookup k' = d.lookup k' := by
  unfold dictSet
  by_cases hany : d.any (fun p => p.1 == k) = true
  · rw [if_pos hany]
    exact lookup_map_overwrite_ne d k v k' h
  · rw [if_neg hany]
    exact lookup_append_single_ne d k v k' h

/-- Helper: after `dictSet d k v`, looking up `k` returns `v`. -/
theorem lookup_dictSet_self (d : List (String × String)) (k v : String) :
    (dictSet d k v).lookup k = some v := by
  unfold dictSet
  by_cases hany : d.any (fun p => p.1 == k) = true
  · rw [if_pos hany]
    exact lookup_map_overwrite_self d k v hany
  · rw [if_neg hany]
    refine lookup_append_single_self d k v ?_
    cases hval : d.any (fun p => p.1 == k) with
    | true => exact absurd hval hany
    | false => rfl

/-- Claim C10: `appendcookie` only ever touches the `"cookiefile"` key:
every other key's lookup is unchanged; the options are returned untouched
when no cookies argument is given or the resolved cookie file is missing;
and when the cookies argument is given and the file exists, the
`"cookiefile"` key is set to the resolved path. -/
theorem appendcookie_frame (pathExists : String → Bool) (abspath : String → String)
    (configpath : String) (opts : List (String × String)) (cookies : Option String) :
    (∀ k, k ≠ "cookiefile" →
      (appendcookie pathExists abspath configpath opts cookies).lookup k
        = opts.lookup k) ∧
    (cookies = none → appendcookie pathExists abspath configpath opts cookies = opts) ∧
    (∀ c, cookies = some c → pathExists (abspath (configpath ++ c)) = false →
      appendcookie pathExists abspath configpath opts cookies = opts) ∧
    (∀ c, cookies = some c → pathExists (abspath (configpath ++ c)) = true →
      (appendcookie pathExists abspath configpath opts cookies).lookup "cookiefile"
        = some (abspath (configpath ++ c))) := by
  refine ⟨?_, ?_, ?_, ?_⟩
  · intro k hk
    cases cookies with
    | none => rfl
    | some c =>
      by_cases hex : pathExists (abspath (configpath ++ c)) = true
      · simp only [appendcookie, if_pos hex]
        exact lookup_dictSet_ne opts "cookiefile" _ k hk
      · simp only [appendcookie, if_neg hex]
  · intro h
    subst h
    rfl
  · intro c hc hex
    subst hc
    simp only [appendcookie]
    rw [if_neg]
    rw [hex]
    exact Bool.false_ne_true
  · intro c hc hex
    subst hc
    simp only [appendcookie, if_pos hex]
    exact lookup_dictSet_self opts "cookiefile" (abspath (configpath ++ c))

/-- Witness for C10 at concrete inputs: with an existing cookie file, the
`"quiet"` option survives unchanged and the `"cookiefile"` key holds the
resolved path. -/
theorem appendcookie_frame_witness :
    (appendcookie (fun _ => true) (fun s => s) "/config/" [("quiet", "1")]
        (some "c.txt")).lookup "quiet" = [("quiet", "1")].lookup "quiet" ∧
    (appendcookie (fun _ => true) (fun s => s) "/config/" [("quiet", "1")]
        (some "c.txt")).lookup "cookiefile" = some "/config/c.txt" :=
  ⟨(appendcookie_frame (fun _ => true) (fun s => s) "/config/" [("quiet", "1")]
      (some "c.txt")).1 "quiet" (by decide),
   (appendcookie_frame (fun _ => true) (fun s => s) "/config/" [("quiet", "1")]
      (some "c.txt")).2.2.2 "c.txt" rfl rfl⟩

/-- Helper: the series list returned by `getseriesepisodes` keeps the head
series exactly when its filtered episode list is non-empty. -/
theorem getseriesepisodes_fst_cons (fetch : Nat → List EpisodeRecord)
    (resub : String → String → String → String) (now : Int)
    (ser : SeriesPolicy) (rest : List SeriesPolicy) :
    (getseriesepisodes fetch resub now (ser :: rest)).1 =
      if ((fetch ser.id).filter (episodeNeeded ser now)).isEmpty
      then (getseriesepisodes fetch resub now rest).1
      else ser :: (getseriesepisodes fetch resub now rest).1 := by
  by_cases h : ((fetch ser.id).filter (episodeNeeded ser now)).isEmpty = true
  · simp only [getseriesepisodes, if_pos h]
  · simp only [getseriesepisodes, if_neg h]

/-- Claim C6: every series surviving in the series list that
`getseriesepisodes` hands to the download stage has at least one needed
episode; series whose filtered episode list came out empty have been
removed. -/
theorem getseriesepisodes_only_needed (fetch : Nat → List EpisodeRecord)
    (resub : String → String → String → String) (now : Int)
    (series : List SeriesPolicy) (ser : SeriesPolicy)
    (h : ser ∈ (getseriesepisodes fetch resub now series).1) :
    (fetch ser.id).filter (episodeNeeded ser now) ≠ [] := by
  induction series with
  | nil => simp [getseriesepisodes] at h
  | cons s rest ih =>
    rw [getseriesepisodes_fst_cons] at h
    by_cases hemp : ((fetch s.id).filter (episodeNeeded s now)).isEmpty = true
    · rw [if_pos hemp] at h
      exact ih h
    · rw [if_neg hemp] at h
      rcases List.mem_cons.mp h with rfl | h2
      · intro hc
        exact hemp (by rw [hc]; rfl)
      · exact ih h2

/-- Witness for C6 at a concrete input: the surviving series `policyA`
indeed has a non-empty needed episode list. -/
theorem getseriesepisodes_only_needed_witness :
    ((fun _ : Nat => [epNoDate]) policyA.id).filter (episodeNeeded policyA 0) ≠ [] :=
  getseriesepisodes_only_needed (fun _ => [epNoDate]) (fun _ _ t => t) 0 [policyA] policyA
    (by decide)

/-- Counterexample to claim C8 as stated: two configured wanted entries
sharing the title "A" both match the same remote series, so the matched
list contains two policies with the same title. -/
theorem filterseries_duplicate_title_counterexample :
    ¬ List.Pairwise (fun a b : SeriesPolicy => a.title ≠ b.title)
        (filterseries [remoteA] [wantedA, { title := "A", url := "u2" }]) := by
  decide

/-- Helper: when the configured wanted titles are pairwise distinct, at
most one wanted entry matches any given title. -/
theorem filter_title_length_le_one (wanted : List WantedSeries) (t : String)
    (hw : (wanted.map WantedSeries.title).Pairwise (· ≠ ·)) :
    (wanted.filter (fun wnt => wnt.title == t)).length ≤ 1 := by
  induction wanted with
  | nil => simp
  | cons w ws ih =>
    rw [List.map_cons, List.pairwise_cons] at hw
    obtain ⟨hw1, hw2⟩ := hw
    rw [List.filter_cons]
    by_cases hwt : (w.title == t) = true
    · rw [if_pos hwt]
      have ht : w.title = t := beq_iff_eq.mp hwt
      have hnil : ws.filter (fun wnt => wnt.title == t) = [] := by
        rw [List.filter_eq_nil_iff]
        intro w' hw'
        have hne : w.title ≠ w'.title := hw1 w'.title (List.mem_map.mpr ⟨w', hw', rfl⟩)
        simp only [beq_iff_eq]
        exact fun he => hne (ht.trans he.symm)
      rw [hnil]
      simp
    · rw [if_neg hwt]
      exact ih hw2

/-- Helper: with pairwise-distinct wanted titles, the titles of the
matched list form a sublist of the remote titles. -/
theorem filterseries_titles_sublist (remote : List RemoteSeries)
    (wanted : List WantedSeries)
    (hw : (wanted.map WantedSeries.title).Pairwise (· ≠ ·)) :
    ((filterseries remote wanted).map SeriesPolicy.title).Sublist
      (remote.map RemoteSeries.title) := by
  induction remote with
  | nil => simp [filterseries]
  | cons ser rest ih =>
    rw [List.map_cons]
    have hlen := filter_title_length_le_one wanted ser.title hw
    cases hf : wanted.filter (fun wnt => wnt.title == ser.title) with
    | nil =>
      simp only [filterseries, hf, List.map_nil, List.nil_append]
      exact ih.cons ser.title
    | cons w ws =>
      have hws : ws = [] := by
        rw [hf] at hlen
        have hlen0 : ws.length = 0 := by
          simp only [List.length_cons] at hlen
          omega
        exact List.eq_nil_of_length_eq_zero hlen0
      subst hws
      simp only [filterseries, hf, List.map_cons, List.map_nil, List.map_append,
        List.cons_append, List.nil_append]
      exact ih.cons₂ ser.title

/-- Claim C8 as amended: provided no two configured wanted entries share a
title and no two remote series share a title, the matched list produced by
`filterseries` contains at most one policy per title. (Without those
provisos duplicate titles do occur, see the counterexample.) -/
theorem filterseries_titles_nodup (remote : List RemoteSeries)
    (wanted : List WantedSeries)
    (hr : (remote.map RemoteSeries.title).Pairwise (· ≠ ·))
    (hw : (wanted.map WantedSeries.title).Pairwise (· ≠ ·)) :
    ((filterseries remote wanted).map SeriesPolicy.title).Pairwise (· ≠ ·) :=
  List.Pairwise.sublist (filterseries_titles_sublist remote wanted hw) hr

/-- Witness for C8 at concrete inputs with distinct titles on both sides. -/
theorem filterseries_titles_nodup_witness :
    ((filterseries [remoteA, remoteB] [wantedA]).map SeriesPolicy.title).Pairwise
      (· ≠ ·) :=
  filterseries_titles_nodup [remoteA, remoteB] [wantedA] (by decide) (by decide)
